import Mathlib

/-!
Verification of `src/html_to_dataframe.py` (HtmlToDataFrame).

The Python source is shallowly embedded: BeautifulSoup DOM queries are
modelled on an explicit `Node` tree, Python string/number library calls
(`str.strip`, `str.split`, `str.replace`, `float`, `int`, `re.search`)
are modelled as executable Lean functions on `List Char`/`String`, Python
floats are modelled as rationals (no claim concerns rounding), the pandas
calls in `create_dataframe` (`pd.DataFrame`, `drop_duplicates`,
column-reorder indexing) are modelled on an explicit column/row table,
and exceptions are modelled with `Except`.
-/

namespace HtmlToDataFrame

/-! ## Models of Python string primitives -/

/-- Value of a list of decimal digit characters, most significant first
(the value `int`/`float` give to a plain digit string). -/
def digitsToNat (cs : List Char) : Nat :=
  cs.foldl (fun a c => 10 * a + (c.toNat - 48)) 0

/-- Leading/trailing-whitespace trim on characters: model of Python
`str.strip()` (also performed internally by `float()`/`int()`). -/
def trimWs (cs : List Char) : List Char :=
  ((cs.dropWhile Char.isWhitespace).reverse.dropWhile Char.isWhitespace).reverse

/-- Model of Python `str.strip()`. -/
def pyStrip (s : String) : String :=
  String.mk (trimWs s.toList)

/-- Model of Python `str.replace(c, "")` for a single-character pattern:
every occurrence of `c` is removed. -/
def removeChar (c : Char) (s : String) : String :=
  String.mk (s.toList.filter (fun d => d ≠ c))

/-- Model of Python `str.replace(a, b)` for single-character `a`, `b`:
every occurrence of `a` becomes `b`. -/
def replaceCharBy (a b : Char) (s : String) : String :=
  String.mk (s.toList.map (fun d => if d = a then b else d))

/-- Unsigned decimal-literal parser: digits, optionally one point and more
digits, at least one digit in all; anything else fails. Used by `pyFloat`. -/
def parseUnsigned (cs : List Char) : Option ℚ :=
  if (cs.dropWhile Char.isDigit).isEmpty then
    if (cs.takeWhile Char.isDigit).isEmpty then none
    else some (digitsToNat (cs.takeWhile Char.isDigit) : ℚ)
  else if (cs.dropWhile Char.isDigit).head? = some '.' then
    if ((cs.dropWhile Char.isDigit).tail.dropWhile Char.isDigit).isEmpty
        && !((cs.takeWhile Char.isDigit).isEmpty
          && ((cs.dropWhile Char.isDigit).tail.takeWhile Char.isDigit).isEmpty) then
      some ((digitsToNat (cs.takeWhile Char.isDigit) : ℚ) +
        (digitsToNat ((cs.dropWhile Char.isDigit).tail.takeWhile Char.isDigit) : ℚ) /
          (10 : ℚ) ^ ((cs.dropWhile Char.isDigit).tail.takeWhile Char.isDigit).length)
    else none
  else none

/-- Model of Python `float(s)` on plain decimal literals (optional sign,
optional whitespace around; exponents/`inf`/`nan`/underscores — which never
arise from this program's inputs of interest — are not modelled): `none`
models a raised `ValueError`, and the float domain is modelled by `ℚ`. -/
def pyFloat (s : String) : Option ℚ :=
  match trimWs s.toList with
  | [] => none
  | c :: cs =>
    if c = '-' then (parseUnsigned cs).map (fun q => -q)
    else if c = '+' then parseUnsigned cs
    else parseUnsigned (c :: cs)

/-- All-digits integer parser used by `pyInt`. -/
def parseDigitsInt (cs : List Char) : Option ℤ :=
  if cs.isEmpty then none
  else if cs.all Char.isDigit then some (digitsToNat cs : ℤ)
  else none

/-- Model of Python `int(s)` on decimal strings (optional sign, optional
surrounding whitespace, digits only): `none` models a raised `ValueError`. -/
def pyInt (s : String) : Option ℤ :=
  match trimWs s.toList with
  | [] => none
  | c :: cs =>
    if c = '-' then (parseDigitsInt cs).map (fun z => -z)
    else if c = '+' then parseDigitsInt cs
    else parseDigitsInt (c :: cs)

/-- Model of Python `str.split(maxsplit=1)`: drop leading whitespace; empty
rest gives `[]`; otherwise the first whitespace-free token, and — when
anything follows the whitespace run after it — the verbatim remainder. -/
def pySplitMax1 (s : String) : List String :=
  let cs := s.toList.dropWhile Char.isWhitespace
  match cs with
  | [] => []
  | _ =>
    let tok := cs.takeWhile (fun c => !c.isWhitespace)
    let rest := (cs.dropWhile (fun c => !c.isWhitespace)).dropWhile Char.isWhitespace
    if rest.isEmpty then [String.mk tok] else [String.mk tok, String.mk rest]

/-- Helper of `pySplitAll`: accumulates the current word (reversed). -/
def splitWsAux : List Char → List Char → List (List Char)
  | [], acc => if acc.isEmpty then [] else [acc.reverse]
  | c :: cs, acc =>
    if c.isWhitespace then
      if acc.isEmpty then splitWsAux cs [] else acc.reverse :: splitWsAux cs []
    else splitWsAux cs (c :: acc)

/-- Model of Python `str.split()` with no arguments (used for splitting a
multi-class selector string on whitespace runs). -/
def pySplitAll (cs : List Char) : List (List Char) :=
  splitWsAux cs []

/-- Is `c` a digit, point or comma — the character class of the regex
`[\d.,]` in the source's `re.search(r'[\d.,]+', ...)`. -/
def isNumChar (c : Char) : Bool :=
  c.isDigit || c = '.' || c = ','

/-- Model of `re.search(r'[\d.,]+', s)`: the first contiguous run of
digits, points and commas in `s`, or `none` when no such character occurs. -/
def firstNumericRun (s : String) : Option String :=
  match s.toList.dropWhile (fun c => !isNumChar c) with
  | [] => none
  | c :: cs => some (String.mk (c :: cs.takeWhile isNumChar))

/-! ## DOM model (the tree BeautifulSoup hands to the extractor) -/

/-- A parsed DOM node: an element with its tag, its class-attribute word
list, its other attributes, and its children, or a text node. -/
inductive Node where
  | elem (tag : String) (classes : List String) (attrs : List (String × String))
      (children : List Node)
  | text (s : String)

mutual

/-- Model of BeautifulSoup `get_text()`: all text of the subtree, in order. -/
def getText : Node → String
  | .text s => s
  | .elem _ _ _ ch => getTextList ch

def getTextList : List Node → String
  | [] => ""
  | n :: ns => getText n ++ getTextList ns

end

mutual

/-- Strict descendants of a node, in document (preorder) order — the search
space of BeautifulSoup `find`/`find_all` called on that node. -/
def descendantsOf : Node → List Node
  | .text _ => []
  | .elem _ _ _ ch => descendantsList ch

def descendantsList : List Node → List Node
  | [] => []
  | n :: ns => n :: (descendantsOf n ++ descendantsList ns)

end

/-- Model of BeautifulSoup matching of a `class_` string argument: a
one-word selector matches any element carrying that class; a multi-word
selector matches only the exact class-attribute word list. -/
def classSelMatches (classes : List String) (sel : String) : Bool :=
  match (pySplitAll sel.toList).map String.mk with
  | [c] => classes.contains c
  | cs => classes == cs

/-- Does node `n` match tag `tag` and class selector `sel`? -/
def nodeMatches (tag sel : String) (n : Node) : Bool :=
  match n with
  | .text _ => false
  | .elem t classes _ _ => t == tag && classSelMatches classes sel

/-- Model of `node.find_all(tag, class_=sel)`. -/
def findAllTC (tag sel : String) (n : Node) : List Node :=
  (descendantsOf n).filter (nodeMatches tag sel)

/-- Model of `node.find(tag, class_=sel)`. -/
def findTC (tag sel : String) (n : Node) : Option Node :=
  (findAllTC tag sel n).head?

/-- Does node `n` match tag `tag` (no class constraint)? -/
def nodeMatchesTag (tag : String) (n : Node) : Bool :=
  match n with
  | .text _ => false
  | .elem t _ _ _ => t == tag

/-- Model of `node.find(tag)` with no class constraint. -/
def findTag (tag : String) (n : Node) : Option Node :=
  ((descendantsOf n).filter (nodeMatchesTag tag)).head?

/-- Attribute lookup: `n[attr]` when `attr in n.attrs`, else `none`. -/
def getAttr (attr : String) (n : Node) : Option String :=
  match n with
  | .text _ => none
  | .elem _ _ attrs _ => attrs.lookup attr

/-! ## Record and per-card extraction (`extract_info_from_divs`) -/

/-- The `info` dict built per card: each key either set or absent. -/
structure Record where
  product_url : Option String := none
  img_src : Option String := none
  product_name : Option String := none
  currency : Option String := none
  commission : Option ℚ := none
  max_price : Option ℚ := none
  comment_rating : Option ℚ := none
  temperature : Option ℤ := none
  comments : Option ℤ := none
deriving DecidableEq

/-- Keys present in the dict, in the source's insertion order. -/
def Record.keys (r : Record) : List String :=
  (if r.product_url.isSome then ["product_url"] else []) ++
  (if r.img_src.isSome then ["img_src"] else []) ++
  (if r.product_name.isSome then ["product_name"] else []) ++
  (if r.currency.isSome then ["currency"] else []) ++
  (if r.commission.isSome then ["commission"] else []) ++
  (if r.max_price.isSome then ["max_price"] else []) ++
  (if r.comment_rating.isSome then ["comment_rating"] else []) ++
  (if r.temperature.isSome then ["temperature"] else []) ++
  (if r.comments.isSome then ["comments"] else [])

/-- The class of the "price" paragraph (source line 52). -/
def priceClass : String := "_mb-0 _text-3 _text-md-4 _text-green _font-weight-light"

/-- The class of the "gray secondary text" paragraph (source line 66). -/
def maxPriceClass : String := "_mb-0 _text-1 _text-gray-500"

/-- The rating-span class (source line 79). -/
def ratingClass : String := "_mr-1 _text-1 _text-gray-800"

/-- The comment-count span class (source line 94). -/
def commentsClass : String := "_ml-1 _text-1 _text-gray-500 _font-weight _d-none _d-md-inline"

/-- The listing-card container class passed by `_main` (source line 176). -/
def cardClass : String := "hot-col-xl-3 hot-col-lg-4 hot-col-md-6 hot-col-sm-12 _py-3"

/-- The locale-decimal normalization applied to price texts (source lines
58, 60, 71): strip every point, turn the comma into a point, `float(...)`. -/
def parseLocaleDecimal (s : String) : Option ℚ :=
  pyFloat (replaceCharBy ',' '.' (removeChar '.' s))

/-- Source lines 36–39: the `product_url` field. -/
def extractUrl (div : Node) : Option String :=
  match findTag "a" div with
  | some a =>
    match getAttr "href" a with
    | some href => some ("https://app.hotmart.com" ++ href)
    | none => none
  | none => none

/-- Source lines 41–44: the `img_src` field. -/
def extractImg (div : Node) : Option String :=
  match findTag "img" div with
  | some img => getAttr "src" img
  | none => none

/-- Source lines 46–49: the `product_name` field. -/
def extractName (div : Node) : Option String :=
  (findTC "span" "product-name" div).map getText

/-- Source lines 51–63: the `currency`/`commission` fields. `.error`
models a `ValueError` raised by `float(...)`. -/
def extractPrice (div : Node) : Except String (Option String × ℚ) :=
  match findTC "p" priceClass div with
  | some p =>
    let t := pyStrip (getText p)
    match pySplitMax1 t with
    | [c, num] =>
      match parseLocaleDecimal num with
      | some q => .ok (some c, q)
      | none => .error ("could not convert string to float: " ++ num)
    | _ =>
      match parseLocaleDecimal t with
      | some q => .ok (none, q)
      | none => .error ("could not convert string to float: " ++ t)
  | none => .ok (some " ", 0)

/-- Source lines 65–76, as the spec's `parseFirstNumericToken`: no
digit/point/comma run gives the default, otherwise the run is normalized. -/
def parseFirstNumericToken (s : String) : Except String ℚ :=
  match firstNumericRun s with
  | none => .ok 0
  | some run =>
    match parseLocaleDecimal run with
    | some q => .ok q
    | none => .error ("could not convert string to float: " ++ run)

/-- Source lines 65–76: the `max_price` field. -/
def extractMaxPrice (div : Node) : Except String ℚ :=
  match findTC "p" maxPriceClass div with
  | some p => parseFirstNumericToken (pyStrip (getText p))
  | none => .ok 0

/-- Source lines 78–91: the `comment_rating`/`temperature` fields. -/
def extractRating (div : Node) : Except String (ℚ × ℤ) :=
  match findAllTC "span" ratingClass div with
  | [] => .ok (0, 0)
  | s1 :: rest =>
    match pyFloat (pyStrip (getText s1)) with
    | none => .error ("could not convert string to float: " ++ pyStrip (getText s1))
    | some q =>
      match rest with
      | [] => .ok (q, 0)
      | s2 :: _ =>
        match pyInt (removeChar '°' (pyStrip (getText s2))) with
        | some n => .ok (q, n)
        | none => .error ("invalid literal for int: " ++ pyStrip (getText s2))

/-- Source lines 93–100: the `comments` field. -/
def extractComments (div : Node) : Except String ℤ :=
  match findTC "span" commentsClass div with
  | some s =>
    let t := removeChar '.' (removeChar ')' (removeChar '(' (pyStrip (getText s))))
    match pyInt t with
    | some n => .ok n
    | none => .error ("invalid literal for int: " ++ t)
  | none => .ok 0

/-- The loop body of `extract_info_from_divs` for one `div` (source lines
33–100): builds the `info` dict; the first uncaught `ValueError` aborts. -/
def extractCard (div : Node) : Except String Record :=
  match extractPrice div with
  | .error e => .error e
  | .ok (cur, com) =>
    match extractMaxPrice div with
    | .error e => .error e
    | .ok mp =>
      match extractRating div with
      | .error e => .error e
      | .ok (cr, tp) =>
        match extractComments div with
        | .error e => .error e
        | .ok cm =>
          .ok { product_url := extractUrl div
                img_src := extractImg div
                product_name := extractName div
                currency := cur
                commission := some com
                max_price := some mp
                comment_rating := some cr
                temperature := some tp
                comments := some cm }

/-- Source lines 33–104: the `for div in divs` loop, appending each
nonempty `info`; any exception aborts the whole loop. -/
def extractLoop : List Node → Except String (List Record)
  | [] => .ok []
  | d :: ds =>
    match extractCard d with
    | .error e => .error e
    | .ok r =>
      match extractLoop ds with
      | .error e => .error e
      | .ok rs => .ok (if r.keys.isEmpty then rs else r :: rs)

/-- Source lines 27–109: `extract_info_from_divs`. Its Python result is
either a list of dicts or — from the function-level `except` — an error
string; `.error` carries that string. -/
def extract_info_from_divs (doc : Node) (class_name : String) :
    Except String (List Record) :=
  match extractLoop (findAllTC "div" class_name doc) with
  | .ok l => .ok l
  | .error e => .error ("An error occurred: " ++ e)

/-! ## Table assembly (`create_dataframe`) -/

/-- The assembled DataFrame: its column labels in order, and its rows. -/
structure Table where
  cols : List String
  rows : List Record
deriving DecidableEq

/-- Columns of `pd.DataFrame(info_list)`: union of the dicts' keys in
order of first appearance. -/
def dfColumns (l : List Record) : List String :=
  l.foldl (fun acc r => acc ++ r.keys.filter (fun k => ¬ acc.contains k)) []

/-- Model of `df.drop_duplicates(subset=['product_url'])` on the rows:
keep the first row for each `product_url` value (pandas treats the NaN of
a missing key as equal to NaN, so missing values also deduplicate). -/
def dedupByUrl (seen : List (Option String)) : List Record → List Record
  | [] => []
  | r :: rs =>
    if r.product_url ∈ seen then dedupByUrl seen rs
    else r :: dedupByUrl (r.product_url :: seen) rs

/-- The fixed column reorder of source lines 121–122. -/
def exportCols : List String :=
  ["product_name", "currency", "commission", "max_price",
   "comment_rating", "comments", "temperature", "product_url", "img_src"]

/-- Source lines 113–127: `create_dataframe` (without the CSV side
effect). `drop_duplicates(subset=['product_url'])` raises a `KeyError`
when the frame has no `product_url` column; the reorder `df[[...]]` raises
a `KeyError` when any requested column is absent. `.error` models a raised
exception. -/
def create_dataframe (info_list : List Record) : Except String Table :=
  if "product_url" ∈ dfColumns info_list then
    if ∀ c ∈ exportCols, c ∈ dfColumns info_list then
      .ok { cols := exportCols, rows := dedupByUrl [] info_list }
    else
      .error "KeyError: reorder references a column not in the frame"
  else
    .error "KeyError: Index(['product_url'], dtype='object')"

/-! ## File input (`get_file_text`) and the pipeline head -/

/-- Outcome of opening and reading a file, the input `get_file_text`
branches on: content, `FileNotFoundError`, or another `Exception` with
its message. -/
inductive FileOutcome where
  | content (s : String)
  | notFound
  | readError (e : String)

/-- Source lines 16–23: `get_file_text`, over an explicit model `fs` of
the file system. Read errors are returned in-band as strings. -/
def get_file_text (fs : String → FileOutcome) (file_path : String) : String :=
  match fs file_path with
  | .content s => s
  | .notFound => "\nERROR: File Not Found!\n"
  | .readError e => "\nERROR:\n" ++ e ++ "\n"

/-- Modelled from BeautifulSoup: parsing markup text that contains no tag
produces a document holding a single text node (no elements at all). The
error strings returned by `get_file_text` contain no `<`, so this is the
tree `_main` hands to the extractor on a failed read. -/
def parsePlainText (s : String) : Node := Node.text s

/-! ## Digit-list presentation of locale-numeric texts

Texts matching `\d{1,3}(\.\d{3})*,\d+` (and plain digit strings) are
presented by their digit lists, so that universally quantified statements
about them stay decidable per digit. -/

/-- The character of one decimal digit. -/
def digitChar (d : Fin 10) : Char := Char.ofNat (48 + d.val)

/-- Value of a digit list, most significant first. -/
def natOfDigits (ds : List (Fin 10)) : ℕ :=
  ds.foldl (fun a d => 10 * a + d.val) 0

/-- The text `d1.d3d3...d3,f` — the general form matched by
`\d{1,3}(\.\d{3})*,\d+`: leading group `d1`, point-separated groups `gs`,
comma, fractional digits `f`. -/
def localeText (d1 : List (Fin 10)) (gs : List (List (Fin 10))) (f : List (Fin 10)) : String :=
  String.mk (d1.map digitChar ++
    (gs.map (fun g => '.' :: g.map digitChar)).flatten ++
    [','] ++ f.map digitChar)

deriving instance DecidableEq for Except

/-! ## Concrete inputs used by witnesses and counterexamples -/

/-- The card-container class list `_main` selects on, as a word list. -/
def cardClasses : List String :=
  ["hot-col-xl-3", "hot-col-lg-4", "hot-col-md-6", "hot-col-sm-12", "_py-3"]

/-- The price-paragraph class list, as a word list. -/
def priceClasses : List String :=
  ["_mb-0", "_text-3", "_text-md-4", "_text-green", "_font-weight-light"]

/-- The rating-span class list, as a word list. -/
def ratingClasses : List String := ["_mr-1", "_text-1", "_text-gray-800"]

/-- A card with every sub-element present and well formed. -/
def okCard : Node :=
  .elem "div" cardClasses []
    [.elem "a" [] [("href", "/product/1")]
      [.elem "img" [] [("src", "http://img/1.png")] []],
     .elem "span" ["product-name"] [] [.text "Widget"],
     .elem "p" priceClasses [] [.text " R$ 49,90 "],
     .elem "p" ["_mb-0", "_text-1", "_text-gray-500"] [] [.text "R$ 1.234,56"],
     .elem "span" ratingClasses [] [.text "4.5"],
     .elem "span" ratingClasses [] [.text "87°"],
     .elem "span" ["_ml-1", "_text-1", "_text-gray-500", "_font-weight",
       "_d-none", "_d-md-inline"] [] [.text "(1.234)"]]

/-- The record extracted from `okCard`. -/
def okRec : Record :=
  { product_url := some "https://app.hotmart.com/product/1"
    img_src := some "http://img/1.png"
    product_name := some "Widget"
    currency := some "R$"
    commission := some (499 / 10)
    max_price := some (30864 / 25)
    comment_rating := some (9 / 2)
    temperature := some 87
    comments := some 1234 }

/-- A document holding just `okCard`. -/
def okDoc : Node := .elem "[document]" [] [] [okCard]

/-- A card whose price paragraph holds non-numeric text: `float` raises. -/
def badPriceCard : Node :=
  .elem "div" cardClasses [] [.elem "p" priceClasses [] [.text "abc"]]

/-- A document holding just `badPriceCard`. -/
def badPriceDoc : Node := .elem "[document]" [] [] [badPriceCard]

/-- A card with no recognized sub-element at all. -/
def emptyCard : Node := .elem "div" cardClasses [] []

/-- The all-defaults record extracted from `emptyCard`. -/
def emptyRec : Record :=
  { currency := some " ", commission := some 0, max_price := some 0,
    comment_rating := some 0, temperature := some 0, comments := some 0 }

/-- A card whose price text has a currency part and a numeric part. -/
def priceTwoCard : Node :=
  .elem "div" cardClasses [] [.elem "p" priceClasses [] [.text "R$ 49,90"]]

/-- The record extracted from `priceTwoCard`. -/
def priceTwoRec : Record :=
  { currency := some "R$", commission := some (499 / 10), max_price := some 0,
    comment_rating := some 0, temperature := some 0, comments := some 0 }

/-- A card whose price text has no whitespace at all. -/
def priceOneCard : Node :=
  .elem "div" cardClasses [] [.elem "p" priceClasses [] [.text "49,90"]]

/-- The record extracted from `priceOneCard`: no `currency` key. -/
def priceOneRec : Record :=
  { currency := none, commission := some (499 / 10), max_price := some 0,
    comment_rating := some 0, temperature := some 0, comments := some 0 }

/-- A card with exactly one rating span. -/
def oneSpanCard : Node :=
  .elem "div" cardClasses [] [.elem "span" ratingClasses [] [.text "4.5"]]

/-- The record extracted from `oneSpanCard`. -/
def oneSpanRec : Record :=
  { currency := some " ", commission := some 0, max_price := some 0,
    comment_rating := some (9 / 2), temperature := some 0, comments := some 0 }

/-- A card with two rating spans `"4.5"` and `"87°"`. -/
def twoSpanCard : Node :=
  .elem "div" cardClasses []
    [.elem "span" ratingClasses [] [.text "4.5"],
     .elem "span" ratingClasses [] [.text "87°"]]

/-- The record extracted from `twoSpanCard`. -/
def twoSpanRec : Record :=
  { currency := some " ", commission := some 0, max_price := some 0,
    comment_rating := some (9 / 2), temperature := some 87, comments := some 0 }

/-- A fully populated record with `product_url` `"u"`. -/
def fullRecA : Record :=
  { product_url := some "u", img_src := some "i", product_name := some "A",
    currency := some "R$", commission := some 1, max_price := some 2,
    comment_rating := some 3, temperature := some 4, comments := some 5 }

/-- A second fully populated record with the same `product_url` `"u"`. -/
def fullRecB : Record :=
  { product_url := some "u", img_src := some "j", product_name := some "B",
    currency := some "R$", commission := some 6, max_price := some 7,
    comment_rating := some 8, temperature := some 9, comments := some 10 }

/-- The table assembled from `[fullRecA, fullRecB]`: row B deduplicated away. -/
def dedupTable : Table := { cols := exportCols, rows := [fullRecA] }

/-- A file system on which every read raises `FileNotFoundError`. -/
def noFileFs : String → FileOutcome := fun _ => .notFound

/-- A file system on which every read raises a generic `Exception`. -/
def errFileFs : String → FileOutcome := fun _ => .readError "Permission denied"

/-! ## Helper lemmas on the string primitives -/

theorem toList_mk (l : List Char) : (String.mk l).toList = l := rfl

theorem mk_toList (s : String) : String.mk s.toList = s := rfl

theorem takeWhile_append_all {α : Type} (p : α → Bool) {l1 : List α} (l2 : List α)
    (h : ∀ c ∈ l1, p c = true) :
    (l1 ++ l2).takeWhile p = l1 ++ l2.takeWhile p := by
  induction l1 with
  | nil => rfl
  | cons a t ih =>
    have ha := h a (List.mem_cons_self a t)
    simp only [List.cons_append, List.takeWhile_cons, ha, if_true]
    rw [ih (fun c hc => h c (List.mem_cons_of_mem a hc))]

theorem dropWhile_append_all {α : Type} (p : α → Bool) {l1 : List α} (l2 : List α)
    (h : ∀ c ∈ l1, p c = true) :
    (l1 ++ l2).dropWhile p = l2.dropWhile p := by
  induction l1 with
  | nil => rfl
  | cons a t ih =>
    have ha := h a (List.mem_cons_self a t)
    simp only [List.cons_append, List.dropWhile_cons, ha, if_true]
    exact ih (fun c hc => h c (List.mem_cons_of_mem a hc))

theorem takeWhile_all {α : Type} (p : α → Bool) {l : List α}
    (h : ∀ c ∈ l, p c = true) : l.takeWhile p = l := by
  have := takeWhile_append_all p ([] : List α) h
  simpa using this

theorem dropWhile_all {α : Type} (p : α → Bool) {l : List α}
    (h : ∀ c ∈ l, p c = true) : l.dropWhile p = [] := by
  have := dropWhile_append_all p ([] : List α) h
  simpa using this

theorem dropWhile_none {α : Type} (p : α → Bool) {l : List α}
    (h : ∀ c ∈ l, p c = false) : l.dropWhile p = l := by
  cases l with
  | nil => rfl
  | cons a t => simp [List.dropWhile_cons, h a (List.mem_cons_self a t)]

theorem trimWs_eq_self {l : List Char} (h : ∀ c ∈ l, c.isWhitespace = false) :
    trimWs l = l := by
  unfold trimWs
  rw [dropWhile_none _ h, dropWhile_none, List.reverse_reverse]
  intro c hc
  exact h c (List.mem_reverse.mp hc)

theorem map_eq_self_of {α : Type} {f : α → α} {l : List α}
    (h : ∀ a ∈ l, f a = a) : l.map f = l := by
  induction l with
  | nil => rfl
  | cons a t ih =>
    simp only [List.map_cons, h a (List.mem_cons_self a t)]
    rw [ih (fun b hb => h b (List.mem_cons_of_mem a hb))]

/-! ## Digit-character facts (decided over `Fin 10`) -/

theorem digit_isDigit : ∀ d : Fin 10, (digitChar d).isDigit = true := by decide

theorem digit_not_ws : ∀ d : Fin 10, (digitChar d).isWhitespace = false := by decide

theorem digit_ne_minus : ∀ d : Fin 10, digitChar d ≠ '-' := by decide

theorem digit_ne_plus : ∀ d : Fin 10, digitChar d ≠ '+' := by decide

theorem digit_ne_dot : ∀ d : Fin 10, digitChar d ≠ '.' := by decide

theorem digit_ne_comma : ∀ d : Fin 10, digitChar d ≠ ',' := by decide

theorem digit_ne_deg : ∀ d : Fin 10, digitChar d ≠ '°' := by decide

theorem digit_toNat : ∀ d : Fin 10, (digitChar d).toNat - 48 = d.val := by decide

theorem digitsToNat_map (ds : List (Fin 10)) :
    digitsToNat (ds.map digitChar) = natOfDigits ds := by
  unfold digitsToNat natOfDigits
  rw [List.foldl_map]
  have hfun : (fun (x : ℕ) (y : Fin 10) => 10 * x + ((digitChar y).toNat - 48)) =
      (fun (a : ℕ) (d : Fin 10) => 10 * a + d.val) := by
    funext x y
    have := digit_toNat y
    omega
  rw [hfun]

theorem pyInt_digits (ds : List (Fin 10)) (h : ds ≠ []) :
    pyInt (String.mk (ds.map digitChar)) = some (natOfDigits ds : ℤ) := by
  obtain ⟨a, t, rfl⟩ : ∃ a t, ds = a :: t := by
    cases ds with
    | nil => exact absurd rfl h
    | cons a t => exact ⟨a, t, rfl⟩
  have hnw : ∀ c ∈ (a :: t).map digitChar, c.isWhitespace = false := by
    intro c hc
    obtain ⟨d, _, rfl⟩ := List.mem_map.mp hc
    exact digit_not_ws d
  have htrim : trimWs (String.mk ((a :: t).map digitChar)).toList =
      digitChar a :: t.map digitChar := by
    rw [toList_mk]
    exact trimWs_eq_self hnw
  have hall : (digitChar a :: t.map digitChar).all Char.isDigit = true := by
    rw [List.all_eq_true]
    intro x hx
    have hx2 : x ∈ (a :: t).map digitChar := hx
    obtain ⟨d, _, rfl⟩ := List.mem_map.mp hx2
    exact digit_isDigit d
  unfold pyInt
  rw [htrim]
  dsimp only
  rw [if_neg (digit_ne_minus a), if_neg (digit_ne_plus a)]
  unfold parseDigitsInt
  rw [if_neg (by simp), if_pos hall]
  show some ((digitsToNat ((a :: t).map digitChar) : ℕ) : ℤ) = _
  rw [digitsToNat_map]

theorem pyFloat_digits_point (dI dF : List (Fin 10)) (hI : dI ≠ []) :
    pyFloat (String.mk (dI.map digitChar ++ '.' :: dF.map digitChar)) =
      some ((natOfDigits dI : ℚ) + (natOfDigits dF : ℚ) / (10 : ℚ) ^ dF.length) := by
  obtain ⟨a, t, rfl⟩ : ∃ a t, dI = a :: t := by
    cases dI with
    | nil => exact absurd rfl hI
    | cons a t => exact ⟨a, t, rfl⟩
  have hdigL : ∀ c ∈ (a :: t).map digitChar, c.isDigit = true := by
    intro c hc
    obtain ⟨d, _, rfl⟩ := List.mem_map.mp hc
    exact digit_isDigit d
  have hdigF : ∀ c ∈ dF.map digitChar, c.isDigit = true := by
    intro c hc
    obtain ⟨d, _, rfl⟩ := List.mem_map.mp hc
    exact digit_isDigit d
  have hnw : ∀ c ∈ (a :: t).map digitChar ++ '.' :: dF.map digitChar,
      c.isWhitespace = false := by
    intro c hc
    rcases List.mem_append.mp hc with h1 | h2
    · obtain ⟨d, _, rfl⟩ := List.mem_map.mp h1
      exact digit_not_ws d
    · rcases List.mem_cons.mp h2 with rfl | h3
      · decide
      · obtain ⟨d, _, rfl⟩ := List.mem_map.mp h3
        exact digit_not_ws d
  have htrim : trimWs (String.mk ((a :: t).map digitChar ++ '.' :: dF.map digitChar)).toList
      = digitChar a :: (t.map digitChar ++ '.' :: dF.map digitChar) := by
    rw [toList_mk]
    exact trimWs_eq_self hnw
  have htailtake : ('.' :: dF.map digitChar).takeWhile Char.isDigit = [] := by
    rw [List.takeWhile_cons, if_neg (by decide)]
  have htake : ((a :: t).map digitChar ++ '.' :: dF.map digitChar).takeWhile Char.isDigit
      = (a :: t).map digitChar := by
    rw [takeWhile_append_all _ _ hdigL, htailtake, List.append_nil]
  have hdrop : ((a :: t).map digitChar ++ '.' :: dF.map digitChar).dropWhile Char.isDigit
      = '.' :: dF.map digitChar := by
    rw [dropWhile_append_all _ _ hdigL, List.dropWhile_cons, if_neg (by decide)]
  unfold pyFloat
  rw [htrim]
  dsimp only
  rw [if_neg (digit_ne_minus a), if_neg (digit_ne_plus a)]
  show parseUnsigned ((a :: t).map digitChar ++ '.' :: dF.map digitChar) = _
  unfold parseUnsigned
  rw [hdrop, htake]
  dsimp only [List.tail_cons, List.head?_cons]
  rw [takeWhile_all _ hdigF, dropWhile_all _ hdigF]
  rw [if_neg (by simp), if_pos rfl, if_pos (by simp)]
  rw [digitsToNat_map, digitsToNat_map, List.length_map]

/-- Claim C3: for every locale-numeric text matching `\d{1,3}(\.\d{3})*,\d+`
(presented by its digit groups via `localeText`), the locale-decimal
normalization used for the `commission` and `max_price` fields — strip every
point, turn the comma into a point, parse as a number — yields exactly the
denoted magnitude with the point as decimal separator. -/
theorem parseLocaleDecimal_grouped (d1 : List (Fin 10)) (gs : List (List (Fin 10)))
    (f : List (Fin 10)) (h1 : d1 ≠ []) (_hlen : d1.length ≤ 3)
    (_hg : ∀ g ∈ gs, g.length = 3) (_hf : f ≠ []) :
    parseLocaleDecimal (localeText d1 gs f) =
      some ((natOfDigits (d1 ++ gs.flatten) : ℚ) +
        (natOfDigits f : ℚ) / (10 : ℚ) ^ f.length) := by
  have hfA : ∀ l : List (Fin 10),
      (l.map digitChar).filter (fun d => d ≠ '.') = l.map digitChar := by
    intro l
    apply List.filter_eq_self.mpr
    intro c hc
    obtain ⟨d, _, rfl⟩ := List.mem_map.mp hc
    simp [digit_ne_dot d]
  have hfG : ∀ gsl : List (List (Fin 10)),
      ((gsl.map (fun g => '.' :: g.map digitChar)).flatten).filter (fun d => d ≠ '.') =
        (gsl.flatten).map digitChar := by
    intro gsl
    induction gsl with
    | nil => rfl
    | cons g tl ih =>
      simp only [List.map_cons, List.flatten_cons, List.filter_append, List.filter_cons]
      rw [if_neg (by simp), hfA g, ih, List.map_append]
  have hA : removeChar '.' (localeText d1 gs f) =
      String.mk ((d1 ++ gs.flatten).map digitChar ++ [','] ++ f.map digitChar) := by
    unfold removeChar localeText
    rw [toList_mk]
    congr 1
    rw [List.filter_append, List.filter_append, List.filter_append]
    rw [hfA d1, hfG gs, hfA f]
    rw [show List.filter (fun d => d ≠ '.') [','] = [','] from rfl]
    simp [List.map_append]
  have hσ : ∀ l : List (Fin 10),
      (l.map digitChar).map (fun d => if d = ',' then '.' else d) = l.map digitChar := by
    intro l
    apply map_eq_self_of
    intro c hc
    obtain ⟨d, _, rfl⟩ := List.mem_map.mp hc
    exact if_neg (digit_ne_comma d)
  have hB : replaceCharBy ',' '.'
        (String.mk ((d1 ++ gs.flatten).map digitChar ++ [','] ++ f.map digitChar)) =
      String.mk ((d1 ++ gs.flatten).map digitChar ++ '.' :: f.map digitChar) := by
    unfold replaceCharBy
    rw [toList_mk]
    congr 1
    rw [List.map_append, List.map_append]
    rw [hσ (d1 ++ gs.flatten), hσ f]
    rw [show List.map (fun d => if d = ',' then '.' else d) [','] = ['.'] from rfl]
    rw [List.append_assoc, List.singleton_append]
  have hne : d1 ++ gs.flatten ≠ [] :=
    fun hcontra => h1 (List.append_eq_nil.mp hcontra).1
  unfold parseLocaleDecimal
  rw [hA, hB]
  exact pyFloat_digits_point (d1 ++ gs.flatten) f hne

/-! ## Deduplication and table-assembly lemmas -/

theorem dedupByUrl_sublist : ∀ (l : List Record) (seen : List (Option String)),
    (dedupByUrl seen l).Sublist l := by
  intro l
  induction l with
  | nil => intro seen; exact List.Sublist.refl []
  | cons r rs ih =>
    intro seen
    unfold dedupByUrl
    by_cases h : r.product_url ∈ seen
    · rw [if_pos h]
      exact (ih seen).cons r
    · rw [if_neg h]
      exact (ih (r.product_url :: seen)).cons₂ r

theorem dedupByUrl_filter (k : Option String) :
    ∀ (l : List Record) (seen : List (Option String)),
      (dedupByUrl seen l).filter (fun r => r.product_url = k) =
        if k ∈ seen then [] else (l.filter (fun r => r.product_url = k)).take 1 := by
  intro l
  induction l with
  | nil =>
    intro seen
    by_cases hk : k ∈ seen
    · simp [dedupByUrl, hk]
    · simp [dedupByUrl, hk]
  | cons r rs ih =>
    intro seen
    unfold dedupByUrl
    by_cases hseen : r.product_url ∈ seen
    · rw [if_pos hseen, ih seen]
      by_cases hk : k ∈ seen
      · rw [if_pos hk, if_pos hk]
      · have hne : ¬ r.product_url = k := fun he => hk (he ▸ hseen)
        rw [if_neg hk, if_neg hk, List.filter_cons, if_neg (by simpa using hne)]
    · rw [if_neg hseen, List.filter_cons]
      by_cases hrk : r.product_url = k
      · have hk : k ∉ seen := fun hin => hseen (hrk ▸ hin)
        rw [if_pos (by simpa using hrk), ih (r.product_url :: seen),
          if_pos (by simp [hrk]), if_neg hk, List.filter_cons,
          if_pos (by simpa using hrk)]
        rfl
      · rw [if_neg (by simpa using hrk), ih (r.product_url :: seen)]
        by_cases hk : k ∈ seen
        · rw [if_pos (by simp [hk]), if_pos hk]
        · rw [if_neg (by
              simp only [List.mem_cons, not_or]
              exact ⟨fun h => hrk h.symm, hk⟩), if_neg hk,
            List.filter_cons, if_neg (by simpa using hrk)]

theorem create_dataframe_ok {l : List Record} {t : Table}
    (h : create_dataframe l = .ok t) :
    t = { cols := exportCols, rows := dedupByUrl [] l } := by
  unfold create_dataframe at h
  by_cases h1 : "product_url" ∈ dfColumns l
  · rw [if_pos h1] at h
    by_cases h2 : ∀ c ∈ exportCols, c ∈ dfColumns l
    · rw [if_pos h2] at h
      exact (Except.ok.inj h).symm
    · rw [if_neg h2] at h
      exact Except.noConfusion h
  · rw [if_neg h1] at h
    exact Except.noConfusion h

/-! ## Structural lemmas about the per-card extractor -/

theorem extractCard_ok {div : Node} {r : Record} (h : extractCard div = .ok r) :
    ∃ cur com mp cr tp cm,
      extractPrice div = .ok (cur, com) ∧
      extractMaxPrice div = .ok mp ∧
      extractRating div = .ok (cr, tp) ∧
      extractComments div = .ok cm ∧
      r = { product_url := extractUrl div, img_src := extractImg div,
            product_name := extractName div, currency := cur,
            commission := some com, max_price := some mp,
            comment_rating := some cr, temperature := some tp,
            comments := some cm } := by
  unfold extractCard at h
  cases h1 : extractPrice div with
  | error e => rw [h1] at h; exact Except.noConfusion h
  | ok v =>
    obtain ⟨cur, com⟩ := v
    rw [h1] at h
    cases h2 : extractMaxPrice div with
    | error e => rw [h2] at h; exact Except.noConfusion h
    | ok mp =>
      rw [h2] at h
      cases h3 : extractRating div with
      | error e => rw [h3] at h; exact Except.noConfusion h
      | ok w =>
        obtain ⟨cr, tp⟩ := w
        rw [h3] at h
        cases h4 : extractComments div with
        | error e => rw [h4] at h; exact Except.noConfusion h
        | ok cm =>
          rw [h4] at h
          exact ⟨cur, com, mp, cr, tp, cm, rfl, rfl, rfl, rfl, (Except.ok.inj h).symm⟩

theorem extractCard_keys_nonempty {div : Node} {r : Record}
    (h : extractCard div = .ok r) : r.keys.isEmpty = false := by
  obtain ⟨cur, com, mp, cr, tp, cm, _, _, _, _, rfl⟩ := extractCard_ok h
  have hmem : "commission" ∈ Record.keys
      { product_url := extractUrl div, img_src := extractImg div,
        product_name := extractName div, currency := cur,
        commission := some com, max_price := some mp,
        comment_rating := some cr, temperature := some tp,
        comments := some cm } := by
    simp [Record.keys]
  cases hke : (Record.keys _).isEmpty with
  | false => rfl
  | true =>
    rw [List.isEmpty_iff] at hke
    rw [hke] at hmem
    cases hmem

theorem pySplitMax1_no_ws {t : String}
    (h : ∀ c ∈ t.toList, c.isWhitespace = false) :
    pySplitMax1 t = [] ∨ pySplitMax1 t = [t] := by
  unfold pySplitMax1
  rw [dropWhile_none _ h]
  rcases hts : t.toList with _ | ⟨a, cs⟩
  · left
    rfl
  · right
    rw [hts] at h
    have hall : ∀ c ∈ a :: cs, (!c.isWhitespace) = true := by
      intro c hc
      rw [h c hc]
      rfl
    dsimp only
    rw [takeWhile_all _ hall, dropWhile_all _ hall]
    rw [show (List.dropWhile Char.isWhitespace [] : List Char) = [] from rfl]
    rw [if_pos (show ([] : List Char).isEmpty = true from rfl)]
    rw [← hts, mk_toList]

theorem pyInt_strip_degree (ds : List (Fin 10)) (h : ds ≠ []) :
    pyInt (removeChar '°' (String.mk (ds.map digitChar ++ ['°']))) =
      some (natOfDigits ds : ℤ) := by
  have hrm : removeChar '°' (String.mk (ds.map digitChar ++ ['°'])) =
      String.mk (ds.map digitChar) := by
    unfold removeChar
    rw [toList_mk]
    congr 1
    rw [List.filter_append]
    rw [List.filter_eq_self.mpr (by
      intro c hc
      obtain ⟨d, _, rfl⟩ := List.mem_map.mp hc
      simp [digit_ne_deg d])]
    rw [show List.filter (fun d => d ≠ '°') ['°'] = [] from rfl, List.append_nil]
  rw [hrm]
  exact pyInt_digits ds h

theorem extractLoop_mem : ∀ (ds : List Node) (l : List Record),
    extractLoop ds = .ok l → ∀ r ∈ l, ∃ d ∈ ds, extractCard d = .ok r := by
  intro ds
  induction ds with
  | nil =>
    intro l h r hr
    rw [show extractLoop [] = .ok [] from rfl] at h
    rw [← Except.ok.inj h] at hr
    cases hr
  | cons d tl ih =>
    intro l h r hr
    unfold extractLoop at h
    cases h1 : extractCard d with
    | error e => rw [h1] at h; exact Except.noConfusion h
    | ok r0 =>
      rw [h1] at h
      cases h2 : extractLoop tl with
      | error e => rw [h2] at h; exact Except.noConfusion h
      | ok rs =>
        rw [h2] at h
        have hl := Except.ok.inj h
        by_cases hke : r0.keys.isEmpty
        · rw [if_pos hke] at hl
          obtain ⟨d', hd', hc'⟩ := ih rs h2 r (hl ▸ hr)
          exact ⟨d', List.mem_cons_of_mem d hd', hc'⟩
        · rw [if_neg hke] at hl
          rw [← hl] at hr
          rcases List.mem_cons.mp hr with rfl | hmem
          · exact ⟨d, List.mem_cons_self d tl, h1⟩
          · obtain ⟨d', hd', hc'⟩ := ih rs h2 r hmem
            exact ⟨d', List.mem_cons_of_mem d hd', hc'⟩

theorem extractLoop_error : ∀ ds : List Node,
    (∃ d ∈ ds, ∃ e, extractCard d = .error e) →
    ∃ e, extractLoop ds = .error e := by
  intro ds
  induction ds with
  | nil =>
    rintro ⟨d, hd, _⟩
    cases hd
  | cons d tl ih =>
    rintro ⟨d0, hd0, e, he⟩
    cases h1 : extractCard d with
    | error e1 => exact ⟨e1, by unfold extractLoop; rw [h1]⟩
    | ok r =>
      rcases List.mem_cons.mp hd0 with rfl | hmem
      · rw [he] at h1
        exact Except.noConfusion h1
      · obtain ⟨e2, he2⟩ := ih ⟨d0, hmem, e, he⟩
        refine ⟨e2, ?_⟩
        unfold extractLoop
        rw [h1, he2]

theorem extractLoop_ok_all : ∀ ds : List Node,
    (∀ d ∈ ds, ∃ r, extractCard d = .ok r) →
    ∃ l, extractLoop ds = .ok l ∧ l.length = ds.length := by
  intro ds
  induction ds with
  | nil => intro _; exact ⟨[], rfl, rfl⟩
  | cons d tl ih =>
    intro h
    obtain ⟨r, hr⟩ := h d (List.mem_cons_self d tl)
    obtain ⟨l, hl, hlen⟩ := ih (fun d' hd' => h d' (List.mem_cons_of_mem d hd'))
    refine ⟨r :: l, ?_, by simp [hlen]⟩
    unfold extractLoop
    rw [hr, hl]
    dsimp only
    rw [if_neg (by rw [extractCard_keys_nonempty hr]; exact Bool.false_ne_true)]

theorem extract_info_ok {doc : Node} {cls : String} {l : List Record}
    (h : extract_info_from_divs doc cls = .ok l) :
    extractLoop (findAllTC "div" cls doc) = .ok l := by
  unfold extract_info_from_divs at h
  cases h1 : extractLoop (findAllTC "div" cls doc) with
  | error e => rw [h1] at h; exact Except.noConfusion h
  | ok l' => rw [h1] at h; rw [Except.ok.inj h]

/-! ## Claim theorems -/

/-- Claim C2: for every card, the currency/commission fields follow the
asymmetric branching of source lines 52–63: price paragraph absent gives
currency `" "` and commission `0.0`; present with a two-part split gives
currency = part 1 and commission = the locale-parsed part 2; present with
whitespace-free text locale-parses the whole text as commission and leaves
currency unset. -/
theorem extract_currency_commission_branches (div : Node) (r : Record)
    (hok : extractCard div = .ok r) :
    (findTC "p" priceClass div = none →
      r.currency = some " " ∧ r.commission = some 0) ∧
    (∀ p c num, findTC "p" priceClass div = some p →
      pySplitMax1 (pyStrip (getText p)) = [c, num] →
      r.currency = some c ∧ r.commission = parseLocaleDecimal num) ∧
    (∀ p, findTC "p" priceClass div = some p →
      (∀ ch ∈ (pyStrip (getText p)).toList, ch.isWhitespace = false) →
      r.currency = none ∧ r.commission = parseLocaleDecimal (pyStrip (getText p))) := by
  obtain ⟨cur, com, mp, cr, tp, cm, hp, _, _, _, rfl⟩ := extractCard_ok hok
  refine ⟨?_, ?_, ?_⟩
  · intro hnone
    unfold extractPrice at hp
    rw [hnone] at hp
    have hinj := Except.ok.inj hp
    have hcur : cur = some " " := (congrArg Prod.fst hinj).symm
    have hcom : com = 0 := (congrArg Prod.snd hinj).symm
    exact ⟨hcur, congrArg some hcom⟩
  · intro p c num hsome hsplit
    unfold extractPrice at hp
    rw [hsome] at hp
    dsimp only at hp
    rw [hsplit] at hp
    dsimp only at hp
    cases hq : parseLocaleDecimal num with
    | none => rw [hq] at hp; exact Except.noConfusion hp
    | some q =>
      rw [hq] at hp
      have hinj := Except.ok.inj hp
      have hcur : cur = some c := (congrArg Prod.fst hinj).symm
      have hcom : com = q := (congrArg Prod.snd hinj).symm
      exact ⟨hcur, congrArg some hcom⟩
  · intro p hsome hnw
    unfold extractPrice at hp
    rw [hsome] at hp
    dsimp only at hp
    rcases pySplitMax1_no_ws hnw with hsp | hsp
    all_goals
      rw [hsp] at hp
      dsimp only at hp
      cases hq : parseLocaleDecimal (pyStrip (getText p)) with
      | none => rw [hq] at hp; exact Except.noConfusion hp
      | some q =>
        rw [hq] at hp
        have hinj := Except.ok.inj hp
        have hcur : cur = none := (congrArg Prod.fst hinj).symm
        have hcom : com = q := (congrArg Prod.snd hinj).symm
        exact ⟨hcur, congrArg some hcom⟩

/-- Claim C4: the rating-span tie-break of source lines 78–91: no rating
span gives `comment_rating = 0.0` and `temperature = 0`; exactly one span
whose text parses as a decimal gives that decimal and `temperature = 0`;
two or more spans give the first span's decimal and, as temperature, the
second span's text with the trailing degree mark stripped read as an
integer. -/
theorem extract_rating_temperature_cases (div : Node) (r : Record)
    (hok : extractCard div = .ok r) :
    (findAllTC "span" ratingClass div = [] →
      r.comment_rating = some 0 ∧ r.temperature = some 0) ∧
    (∀ s1 q, findAllTC "span" ratingClass div = [s1] →
      pyFloat (pyStrip (getText s1)) = some q →
      r.comment_rating = some q ∧ r.temperature = some 0) ∧
    (∀ s1 s2 rest q (ds : List (Fin 10)),
      findAllTC "span" ratingClass div = s1 :: s2 :: rest →
      pyFloat (pyStrip (getText s1)) = some q →
      ds ≠ [] → pyStrip (getText s2) = String.mk (ds.map digitChar ++ ['°']) →
      r.comment_rating = some q ∧ r.temperature = some (natOfDigits ds : ℤ)) := by
  obtain ⟨cur, com, mp, cr, tp, cm, _, _, hr, _, rfl⟩ := extractCard_ok hok
  refine ⟨?_, ?_, ?_⟩
  · intro hnone
    unfold extractRating at hr
    rw [hnone] at hr
    have hinj := Except.ok.inj hr
    have hcr : cr = 0 := (congrArg Prod.fst hinj).symm
    have htp : tp = 0 := (congrArg Prod.snd hinj).symm
    exact ⟨congrArg some hcr, congrArg some htp⟩
  · intro s1 q hone hq
    unfold extractRating at hr
    rw [hone] at hr
    dsimp only at hr
    rw [hq] at hr
    dsimp only at hr
    have hinj := Except.ok.inj hr
    have hcr : cr = q := (congrArg Prod.fst hinj).symm
    have htp : tp = 0 := (congrArg Prod.snd hinj).symm
    exact ⟨congrArg some hcr, congrArg some htp⟩
  · intro s1 s2 rest q ds htwo hq hds hs2
    unfold extractRating at hr
    rw [htwo] at hr
    dsimp only at hr
    rw [hq] at hr
    dsimp only at hr
    rw [hs2, pyInt_strip_degree ds hds] at hr
    dsimp only at hr
    have hinj := Except.ok.inj hr
    have hcr : cr = q := (congrArg Prod.fst hinj).symm
    have htp : tp = (natOfDigits ds : ℤ) := (congrArg Prod.snd hinj).symm
    exact ⟨congrArg some hcr, congrArg some htp⟩

/-- Claim C5: the table assembly deduplicates by `product_url` keeping the
first occurrence: the assembled rows are a subsequence of the input, and
for every key value exactly the first input row with that key survives. -/
theorem create_dataframe_dedups_first (l : List Record) (t : Table)
    (h : create_dataframe l = .ok t) :
    t.rows.Sublist l ∧
    ∀ k : Option String,
      t.rows.filter (fun r => r.product_url = k) =
        (l.filter (fun r => r.product_url = k)).take 1 := by
  rw [create_dataframe_ok h]
  constructor
  · exact dedupByUrl_sublist l []
  · intro k
    rw [show Table.rows { cols := exportCols, rows := dedupByUrl [] l } =
      dedupByUrl [] l from rfl]
    rw [dedupByUrl_filter k l [], if_neg (by simp)]

/-- Claim C6: a column of the fixed reorder (the dedup key `product_url`
included) that is absent from every record of the batch — e.g. after an
all-empty extraction — makes `create_dataframe` raise instead of silently
dropping the column. -/
theorem create_dataframe_missing_col_fails (l : List Record) (c : String)
    (hc : c ∈ exportCols) (hmiss : c ∉ dfColumns l) :
    ∃ msg, create_dataframe l = .error msg := by
  unfold create_dataframe
  by_cases h1 : "product_url" ∈ dfColumns l
  · rw [if_pos h1, if_neg (fun hall => hmiss (hall c hc))]
    exact ⟨_, rfl⟩
  · rw [if_neg h1]
    exact ⟨_, rfl⟩

/-- Claim C9: a successfully assembled table has exactly the fixed column
order `product_name, currency, commission, max_price, comment_rating,
comments, temperature, product_url, img_src`. -/
theorem create_dataframe_column_order (l : List Record) (t : Table)
    (h : create_dataframe l = .ok t) :
    t.cols = ["product_name", "currency", "commission", "max_price",
      "comment_rating", "comments", "temperature", "product_url", "img_src"] := by
  rw [create_dataframe_ok h]
  rfl

/-- Claim C7: every record emitted by a successful extraction has all five
numeric fields (`commission`, `max_price`, `comment_rating`, `temperature`,
`comments`) populated. -/
theorem extract_numeric_fields_populated (doc : Node) (cls : String)
    (l : List Record) (h : extract_info_from_divs doc cls = .ok l) :
    ∀ r ∈ l, r.commission.isSome = true ∧ r.max_price.isSome = true ∧
      r.comment_rating.isSome = true ∧ r.temperature.isSome = true ∧
      r.comments.isSome = true := by
  intro r hr
  obtain ⟨d, _, hd⟩ := extractLoop_mem _ l (extract_info_ok h) r hr
  obtain ⟨cur, com, mp, cr, tp, cm, _, _, _, _, rfl⟩ := extractCard_ok hd
  exact ⟨rfl, rfl, rfl, rfl, rfl⟩

/-- Claim C1, counterexample: on a card whose price text `"abc"` fails
`float` parsing, `extract_info_from_divs` does not emit a record with the
field defaulted — the failure escapes the loop and the function returns an
error string, so the claimed per-field catch does not exist. -/
theorem extract_no_per_field_catch_counterexample :
    extract_info_from_divs badPriceDoc cardClass =
      .error "An error occurred: could not convert string to float: abc" := by
  decide

/-- Claim C1 as amended: a field whose raw text fails numeric parsing is
not caught per-field — the exception propagates out of the card loop to
the function-level handler, which replaces the whole result (all cards)
with an error string; only when every field of every card parses does each
card yield exactly one record. -/
theorem extract_parse_failure_aborts (doc : Node) (cls : String) :
    ((∃ d ∈ findAllTC "div" cls doc, ∃ e, extractCard d = .error e) →
      ∃ msg, extract_info_from_divs doc cls = .error msg) ∧
    ((∀ d ∈ findAllTC "div" cls doc, ∃ r, extractCard d = .ok r) →
      ∃ l, extract_info_from_divs doc cls = .ok l ∧
        l.length = (findAllTC "div" cls doc).length) := by
  constructor
  · intro hbad
    obtain ⟨e, he⟩ := extractLoop_error _ hbad
    refine ⟨"An error occurred: " ++ e, ?_⟩
    unfold extract_info_from_divs
    rw [he]
  · intro hgood
    obtain ⟨l, hl, hlen⟩ := extractLoop_ok_all _ hgood
    refine ⟨l, ?_, hlen⟩
    unfold extract_info_from_divs
    rw [hl]

/-- Claim C8: the first-numeric-token parse used for `max_price` returns
the default `0.0` on text without any digit, point or comma; otherwise it
normalizes exactly the first contiguous run of digit/point/comma
characters; and that parse is precisely what `extractMaxPrice` applies to
the stripped text of the gray price paragraph. -/
theorem parseFirstNumericToken_cases :
    (∀ s : String, (∀ ch ∈ s.toList, isNumChar ch = false) →
      parseFirstNumericToken s = .ok 0) ∧
    (∀ pre run post : List Char,
      (∀ ch ∈ pre, isNumChar ch = false) → run ≠ [] →
      (∀ ch ∈ run, isNumChar ch = true) →
      (∀ c cs, post = c :: cs → isNumChar c = false) →
      firstNumericRun (String.mk (pre ++ run ++ post)) = some (String.mk run) ∧
      ∀ q, parseLocaleDecimal (String.mk run) = some q →
        parseFirstNumericToken (String.mk (pre ++ run ++ post)) = .ok q) ∧
    (∀ div p, findTC "p" maxPriceClass div = some p →
      extractMaxPrice div = parseFirstNumericToken (pyStrip (getText p))) := by
  refine ⟨?_, ?_, ?_⟩
  · intro s hs
    have hall : ∀ c ∈ s.toList, (!isNumChar c) = true := by
      intro c hc
      rw [hs c hc]
      rfl
    have hnone : firstNumericRun s = none := by
      unfold firstNumericRun
      rw [dropWhile_all _ hall]
    unfold parseFirstNumericToken
    rw [hnone]
  · intro pre run post hpre hne hrun hpost
    obtain ⟨a, tr, rfl⟩ : ∃ a tr, run = a :: tr := by
      cases run with
      | nil => exact absurd rfl hne
      | cons a tr => exact ⟨a, tr, rfl⟩
    have hpreT : ∀ ch ∈ pre, (!isNumChar ch) = true := by
      intro ch hc
      rw [hpre ch hc]
      rfl
    have htrT : ∀ ch ∈ tr, isNumChar ch = true :=
      fun ch hc => hrun ch (List.mem_cons_of_mem a hc)
    have hposttake : post.takeWhile isNumChar = [] := by
      cases hpp : post with
      | nil => rfl
      | cons c cs => rw [List.takeWhile_cons, if_neg (by rw [hpost c cs hpp]; decide)]
    have hfirst : firstNumericRun (String.mk (pre ++ (a :: tr) ++ post)) =
        some (String.mk (a :: tr)) := by
      unfold firstNumericRun
      rw [toList_mk, List.append_assoc, dropWhile_append_all _ _ hpreT,
        List.cons_append, List.dropWhile_cons,
        if_neg (by rw [hrun a (List.mem_cons_self a tr)]; decide)]
      dsimp only
      rw [takeWhile_append_all _ _ htrT, hposttake, List.append_nil]
    refine ⟨hfirst, ?_⟩
    intro q hq
    unfold parseFirstNumericToken
    rw [hfirst]
    dsimp only
    rw [hq]
  · intro div p hsome
    unfold extractMaxPrice
    rw [hsome]

/-- Claim C10: on a missing input file, `get_file_text` returns the
descriptive error string in place of content; the pipeline then treats that
string as markup — it parses to a bare text node holding no listing-card
div, so extraction yields the empty list, and the assembly step then fails
hard on the missing columns instead of surfacing the read error. -/
theorem pipeline_read_failure (fs : String → FileOutcome) (path : String) :
    (fs path = .notFound → get_file_text fs path = "\nERROR: File Not Found!\n") ∧
    (∀ e, fs path = .readError e →
      get_file_text fs path = "\nERROR:\n" ++ e ++ "\n") ∧
    (∀ s, extract_info_from_divs (parsePlainText s) cardClass = .ok []) ∧
    ∃ msg, create_dataframe [] = .error msg := by
  refine ⟨?_, ?_, ?_, ?_⟩
  · intro h
    unfold get_file_text
    rw [h]
  · intro e h
    unfold get_file_text
    rw [h]
  · intro s
    rfl
  · exact ⟨"KeyError: Index(['product_url'], dtype='object')", by decide⟩

/-! ## Witnesses -/

set_option maxRecDepth 100000

/-- Witness for claim C1's amended theorem, at `badPriceDoc` and `okDoc`. -/
theorem extract_parse_failure_aborts_witness :
    (∃ msg, extract_info_from_divs badPriceDoc cardClass = .error msg) ∧
    (∃ l, extract_info_from_divs okDoc cardClass = .ok l ∧
      l.length = (findAllTC "div" cardClass okDoc).length) := by
  constructor
  · refine (extract_parse_failure_aborts badPriceDoc cardClass).1 ?_
    refine ⟨badPriceCard, ?_, "could not convert string to float: abc", by decide⟩
    rw [show findAllTC "div" cardClass badPriceDoc = [badPriceCard] from rfl]
    exact List.mem_singleton.mpr rfl
  · refine (extract_parse_failure_aborts okDoc cardClass).2 ?_
    intro d hd
    rw [show findAllTC "div" cardClass okDoc = [okCard] from rfl,
      List.mem_singleton] at hd
    subst hd
    exact ⟨okRec, by with_unfolding_all rfl⟩

/-- Witness for claim C2's theorem, at the three concrete price shapes. -/
theorem extract_currency_commission_branches_witness :
    (emptyRec.currency = some " " ∧ emptyRec.commission = some 0) ∧
    (priceTwoRec.currency = some "R$" ∧
      priceTwoRec.commission = parseLocaleDecimal "49,90") ∧
    (priceOneRec.currency = none ∧
      priceOneRec.commission = parseLocaleDecimal "49,90") := by
  refine ⟨?_, ?_, ?_⟩
  · exact (extract_currency_commission_branches emptyCard emptyRec (by with_unfolding_all rfl)).1 rfl
  · exact (extract_currency_commission_branches priceTwoCard priceTwoRec (by with_unfolding_all rfl)).2.1
      (Node.elem "p" priceClasses [] [Node.text "R$ 49,90"]) "R$" "49,90" rfl (by decide)
  · have h := (extract_currency_commission_branches priceOneCard priceOneRec
        (by with_unfolding_all rfl)).2.2
        (Node.elem "p" priceClasses [] [Node.text "49,90"]) rfl (by decide)
    exact ⟨h.1, h.2⟩

/-- Witness for claim C3's theorem at `"1.234,56"`, which it sends to
`1234 + 56/100 = 30864/25`, the value written `1234.56`. -/
theorem parseLocaleDecimal_grouped_witness :
    localeText [1] [[2, 3, 4]] [5, 6] = "1.234,56" ∧
    parseLocaleDecimal (localeText [1] [[2, 3, 4]] [5, 6]) =
      some ((natOfDigits ([1] ++ [[2, 3, 4]].flatten) : ℚ) +
        (natOfDigits [5, 6] : ℚ) / (10 : ℚ) ^ ([5, 6] : List (Fin 10)).length) ∧
    (natOfDigits ([1] ++ [[2, 3, 4]].flatten) : ℚ) +
      (natOfDigits [5, 6] : ℚ) / (10 : ℚ) ^ ([5, 6] : List (Fin 10)).length =
      30864 / 25 := by
  refine ⟨by decide, ?_, by with_unfolding_all rfl⟩
  exact parseLocaleDecimal_grouped [1] [[2, 3, 4]] [5, 6]
    (by decide) (by decide) (by decide) (by decide)

/-- Witness for claim C4's theorem, at cards with zero, one and two rating
spans; for the two-span card `"4.5"`/`"87°"` it gives rating `9/2 = 4.5`
and temperature `87`. -/
theorem extract_rating_temperature_cases_witness :
    (emptyRec.comment_rating = some 0 ∧ emptyRec.temperature = some 0) ∧
    (oneSpanRec.comment_rating = some (9 / 2) ∧ oneSpanRec.temperature = some 0) ∧
    (twoSpanRec.comment_rating = some (9 / 2) ∧
      twoSpanRec.temperature = some (natOfDigits [8, 7] : ℤ)) := by
  refine ⟨?_, ?_, ?_⟩
  · exact (extract_rating_temperature_cases emptyCard emptyRec (by with_unfolding_all rfl)).1 rfl
  · exact (extract_rating_temperature_cases oneSpanCard oneSpanRec
        (by with_unfolding_all rfl)).2.1
      (Node.elem "span" ratingClasses [] [Node.text "4.5"]) (9 / 2) rfl
      (by with_unfolding_all rfl)
  · exact (extract_rating_temperature_cases twoSpanCard twoSpanRec
        (by with_unfolding_all rfl)).2.2
      (Node.elem "span" ratingClasses [] [Node.text "4.5"])
      (Node.elem "span" ratingClasses [] [Node.text "87°"])
      [] (9 / 2) [8, 7] rfl (by with_unfolding_all rfl) (by decide) (by decide)

/-- Witness for claim C5's theorem: two records sharing `product_url`
`"u"`; only the first survives assembly. -/
theorem create_dataframe_dedups_first_witness :
    dedupTable.rows.Sublist [fullRecA, fullRecB] ∧
    dedupTable.rows.filter (fun r => r.product_url = some "u") =
      ([fullRecA, fullRecB].filter (fun r => r.product_url = some "u")).take 1 := by
  have h := create_dataframe_dedups_first [fullRecA, fullRecB] dedupTable
    (by with_unfolding_all rfl)
  exact ⟨h.1, h.2 (some "u")⟩

/-- Witness for claim C6's theorem: the empty batch misses every column. -/
theorem create_dataframe_missing_col_fails_witness :
    ∃ msg, create_dataframe [] = .error msg :=
  create_dataframe_missing_col_fails [] "product_name" (by decide) (by decide)

/-- Witness for claim C7's theorem at the one-card document `okDoc`. -/
theorem extract_numeric_fields_populated_witness :
    okRec.commission.isSome = true ∧ okRec.max_price.isSome = true ∧
    okRec.comment_rating.isSome = true ∧ okRec.temperature.isSome = true ∧
    okRec.comments.isSome = true :=
  extract_numeric_fields_populated okDoc cardClass [okRec]
    (by with_unfolding_all rfl) okRec (List.mem_singleton.mpr rfl)

/-- Witness for claim C8's theorem: `"R$ "` has no numeric character and
parses to the default; in `"R$ 1.234,56 x"` the first run `"1.234,56"` is
found and normalized to `30864/25 = 1234.56`; and `extractMaxPrice` applies
exactly this parse to `okCard`'s gray paragraph. -/
theorem parseFirstNumericToken_cases_witness :
    parseFirstNumericToken "R$ " = .ok 0 ∧
    (firstNumericRun (String.mk ("R$ ".toList ++ "1.234,56".toList ++ " x".toList)) =
        some (String.mk "1.234,56".toList) ∧
      parseFirstNumericToken
        (String.mk ("R$ ".toList ++ "1.234,56".toList ++ " x".toList)) =
        .ok (30864 / 25)) ∧
    extractMaxPrice okCard =
      parseFirstNumericToken (pyStrip (getText
        (Node.elem "p" ["_mb-0", "_text-1", "_text-gray-500"] []
          [Node.text "R$ 1.234,56"]))) := by
  have h := parseFirstNumericToken_cases
  have hpost : ∀ c cs, " x".toList = c :: cs → isNumChar c = false := by
    intro c cs hcc
    have h3 : some ' ' = some c := congrArg List.head? hcc
    rw [← Option.some.inj h3]
    decide
  have h2 := h.2.1 "R$ ".toList "1.234,56".toList " x".toList
    (by decide) (by decide) (by decide) hpost
  exact ⟨h.1 "R$ " (by decide), ⟨h2.1, h2.2 (30864 / 25) (by with_unfolding_all rfl)⟩,
    h.2.2 okCard _ rfl⟩

/-- Witness for claim C9's theorem at the assembled table `dedupTable`. -/
theorem create_dataframe_column_order_witness :
    dedupTable.cols = ["product_name", "currency", "commission", "max_price",
      "comment_rating", "comments", "temperature", "product_url", "img_src"] :=
  create_dataframe_column_order [fullRecA, fullRecB] dedupTable
    (by with_unfolding_all rfl)

/-- Witness for claim C10's theorem, on a file system with no files and on
one whose reads fail. -/
theorem pipeline_read_failure_witness :
    get_file_text noFileFs "search_data.txt" = "\nERROR: File Not Found!\n" ∧
    get_file_text errFileFs "search_data.txt" = "\nERROR:\nPermission denied\n" ∧
    extract_info_from_divs (parsePlainText (get_file_text noFileFs "search_data.txt"))
      cardClass = .ok [] ∧
    ∃ msg, create_dataframe [] = .error msg :=
  ⟨(pipeline_read_failure noFileFs "search_data.txt").1 rfl,
   (pipeline_read_failure errFileFs "search_data.txt").2.1 "Permission denied" rfl,
   (pipeline_read_failure noFileFs "search_data.txt").2.2.1 _,
   (pipeline_read_failure noFileFs "search_data.txt").2.2.2⟩

end HtmlToDataFrame
